import Mathlib

/-!
Shallow embedding of `src/youtube_outlier_tracker.py` (YouTube Competitor
Outlier Tracker): the outlier scoring and sync-reconciliation core.

Modelling conventions:
* Timestamps are rational numbers of seconds since the epoch (UTC); Python
  `datetime` subtraction `.total_seconds()` becomes rational subtraction.
* Python's true division on numbers is modelled with exact rational
  division (floating-point representation error is not modelled).
* Python `round` (banker's rounding) is modelled as decimal round-half-even
  on rationals (`roundHalfEven`, `roundTo`).
* The Notion store is modelled as a list of `PersistedRecord`s; its
  paginated query responses are a list of `PageResult`s; record creation is
  modelled as succeeding (per-record network failures are external).
* The YouTube client is modelled as a function `feed` from a channel id to
  the channel's recent uploads (newest first), already resolved and with
  details fetched; channel resolution and batching are external plumbing.
-/

/-- A video's raw metadata, as assembled by `get_video_details`
(src lines 159-168): id, title, publish timestamp (absent when unparsable),
view/like/comment counts, canonical URL and thumbnail URL. -/
structure Video where
  id : String
  title : String
  published_at : Option ℚ
  views : ℕ
  likes : ℕ
  comments : ℕ
  url : String
  thumbnail : String
deriving DecidableEq

/-- The record appended by `find_outliers` (src lines 222-229): the video
plus channel name and the display-rounded statistics. -/
structure ClassifiedVideo where
  video : Video
  channel_name : String
  channel_average : ℤ
  outlier_score : ℚ
  views_per_hour : ℤ
  hours_since_upload : ℚ
deriving DecidableEq

/-- A row of the Notion database: the URL (dedup key, from the `URL`
property written at src line 400-402) and the `Found Date` timestamp
(src lines 406-408). -/
structure PersistedRecord where
  url : String
  found_at : ℚ
deriving DecidableEq

/-- A resolved competitor channel (the result of `get_channel_info`,
src lines 107-112, with its uploads available through `feed`). -/
structure ChannelCfg where
  id : String
  name : String
deriving DecidableEq

/-- One response of the Notion paginated database query inside
`get_existing_video_urls` (src lines 318-345): either a page of records
with the `has_more` flag, or a failure (non-200 status or exception, both
of which `break` the loop). -/
inductive PageResult where
  | ok (records : List PersistedRecord) (has_more : Bool)
  | err
deriving DecidableEq

/-- `OUTLIER_THRESHOLD = 1.5` (src line 25). -/
def OUTLIER_THRESHOLD : ℚ := 3 / 2

/-- `VIDEOS_FOR_AVERAGE = 20` (src line 28). -/
def VIDEOS_FOR_AVERAGE : ℕ := 20

/-- `LOOKBACK_HOURS = 168` (src line 31). -/
def LOOKBACK_HOURS : ℚ := 168

/-- `TOPIC_KEYWORDS` (src lines 35-51). -/
def TOPIC_KEYWORDS : List String :=
  ["volcano", "volcanic", "eruption", "erupts", "erupting", "lava", "magma",
   "caldera", "krakatoa", "vesuvius", "yellowstone", "supervolcano",
   "pompeii", "ash cloud", "pyroclastic"]

/-- Python's `round(x)`: round half to even, to an integer. -/
def roundHalfEven (q : ℚ) : ℤ :=
  if Int.fract q < 1 / 2 then ⌊q⌋
  else if 1 / 2 < Int.fract q then ⌊q⌋ + 1
  else if ⌊q⌋ % 2 = 0 then ⌊q⌋ else ⌊q⌋ + 1

/-- Python's `round(x, d)`: round half to even at `d` decimal places. -/
def roundTo (d : ℕ) (q : ℚ) : ℚ :=
  (roundHalfEven (q * (10 : ℚ) ^ d) : ℚ) / (10 : ℚ) ^ d

/-- The instant beginning the UTC calendar day containing `t`: what
`strftime("%Y-%m-%d")` (src line 249) keeps of a timestamp, as an instant. -/
def dayStart (t : ℚ) : ℚ := (⌊t / 86400⌋ : ℚ) * 86400

/-- `calculate_channel_average` (src lines 174-180): mean view count of a
list of videos, `0` for an empty list. -/
def calculate_channel_average (videos : List Video) : ℚ :=
  if videos = [] then 0
  else (((videos.map (fun v => v.views)).sum : ℕ) : ℚ) / (videos.length : ℚ)

/-- `pat` occurs at the head of `s` (helper for substring search). -/
def leadMatch : List Char → List Char → Bool
  | [], _ => true
  | _ :: _, [] => false
  | c :: cs, d :: ds => c = d && leadMatch cs ds

/-- `pat` occurs somewhere in `s`: Python's `pat in s` on strings. -/
def hasSub (pat : List Char) : List Char → Bool
  | [] => leadMatch pat []
  | d :: ds => leadMatch pat (d :: ds) || hasSub pat ds

/-- `str.lower()` as a character list (ASCII case folding). -/
def lowerChars (s : String) : List Char := s.data.map Char.toLower

/-- `matches_topic_filter` (src lines 182-188): with no keywords every
title passes; otherwise the lower-cased title must contain some
lower-cased keyword as a substring. -/
def matches_topic_filter (keywords : List String) (title : String) : Bool :=
  if keywords = [] then true
  else keywords.any (fun k => hasSub (lowerChars k) (lowerChars title))

/-- The outlier score computed at src lines 207-210: `views / average` when
the average is positive, else `0`. -/
def outlierScore (views : ℕ) (channel_average : ℚ) : ℚ :=
  if 0 < channel_average then (views : ℚ) / channel_average else 0

/-- `hours_since_upload` (src line 213): elapsed hours clamped below at 1. -/
def hoursSinceUpload (now published : ℚ) : ℚ :=
  max ((now - published) / 3600) 1

/-- `views_per_hour` (src line 214). -/
def viewsPerHour (views : ℕ) (now published : ℚ) : ℚ :=
  (views : ℚ) / hoursSinceUpload now published

/-- The body of the `find_outliers` loop (src lines 197-229) for one video:
skip when the publish timestamp is missing or before the cutoff, compute
score and velocity, apply the topic filter, then include the video when the
keyword list is non-empty or the score reaches the threshold. -/
def classify_video (keywords : List String) (threshold : ℚ) (now cutoff : ℚ)
    (channel_name : String) (channel_average : ℚ) (v : Video) :
    Option ClassifiedVideo :=
  match v.published_at with
  | none => none
  | some published =>
    if published < cutoff then none
    else
      if matches_topic_filter keywords v.title then
        if keywords ≠ [] ∨ threshold ≤ outlierScore v.views channel_average then
          some ⟨v, channel_name, roundHalfEven channel_average,
                roundTo 2 (outlierScore v.views channel_average),
                roundHalfEven (viewsPerHour v.views now published),
                roundTo 1 (hoursSinceUpload now published)⟩
        else none
      else none

/-- `find_outliers` (src lines 190-231): the cutoff is
`now - lookback_hours` hours, and the loop keeps the classified survivors
in encounter order. -/
def find_outliers (keywords : List String) (threshold : ℚ) (now : ℚ)
    (channel_name : String) (videos : List Video) (channel_average : ℚ)
    (lookback_hours : ℚ) : List ClassifiedVideo :=
  videos.filterMap
    (classify_video keywords threshold now (now - lookback_hours * 3600)
      channel_name channel_average)

/-- Stable insertion for `sortByScoreDesc`: a record is placed before the
first element whose stored `outlier_score` does not exceed its own, so
earlier records precede later ones with an equal score. -/
def insertByScore (c : ClassifiedVideo) : List ClassifiedVideo → List ClassifiedVideo
  | [] => [c]
  | d :: ds =>
    if d.outlier_score ≤ c.outlier_score then c :: d :: ds
    else d :: insertByScore c ds

/-- `all_outliers.sort(key=lambda x: x["outlier_score"], reverse=True)`
(src line 524): Python's stable descending sort by the stored (rounded)
`outlier_score`, modelled as stable insertion sort. -/
def sortByScoreDesc : List ClassifiedVideo → List ClassifiedVideo
  | [] => []
  | c :: cs => insertByScore c (sortByScoreDesc cs)

/-- `get_existing_video_urls` (src lines 303-347), driven by the sequence
of query responses: each successful page contributes the non-empty `URL`
properties of its records; a failed request stops the loop, keeping what
was gathered so far; a page with `has_more = false` ends the loop. -/
def get_existing_video_urls : List PageResult → List String
  | [] => []
  | PageResult.err :: _ => []
  | PageResult.ok records more :: rest =>
    ((records.map (fun r => r.url)).filter (fun u => !(u == ""))) ++
      (if more then get_existing_video_urls rest else [])

/-- `send_to_notion` (src lines 349-438) with every create succeeding:
fetch the existing URLs from the store's listing responses, drop the
candidates whose URL is already known, and create one record per survivor
with `found_at = now`. Returns the created records and the skipped count. -/
def send_to_notion (now : ℚ) (pages : List PageResult)
    (outliers : List ClassifiedVideo) : List PersistedRecord × ℕ :=
  let existing_urls := get_existing_video_urls pages
  let new_outliers := outliers.filter (fun v => !(existing_urls.contains v.video.url))
  (new_outliers.map (fun v => ⟨v.video.url, now⟩),
   outliers.length - new_outliers.length)

/-- A store listing that succeeds in one page: the responses a healthy
store produces for contents `store`. -/
def okListing (store : List PersistedRecord) : List PageResult :=
  [PageResult.ok store false]

/-- The Notion query page cap: the sweep's query (src lines 263-268) sends
no `start_cursor` and no `page_size`, so the store returns at most the
first 100 matching records and the code ignores `has_more`. -/
def NOTION_PAGE_LIMIT : ℕ := 100

/-- Walking the store in listing order, archive (remove) each record whose
`found_at` lies before `cutoff`, stopping once `budget` records have been
archived: what one un-paginated query page of matching records, each
archived in turn (src lines 282-296), does to the store. -/
def archiveFirst (cutoff : ℚ) : ℕ → List PersistedRecord → List PersistedRecord
  | _, [] => []
  | budget, r :: rs =>
    if 0 < budget ∧ r.found_at < cutoff then archiveFirst cutoff (budget - 1) rs
    else r :: archiveFirst cutoff budget rs

/-- `delete_old_entries` (src lines 237-301) with every archive succeeding:
the cutoff is the *calendar date* of `now - days_to_keep` days
(`strftime("%Y-%m-%d")`, src line 249), so a record qualifies exactly when
its `found_at` lies before the start of that day — and the single
un-paginated query (src lines 263-274) returns at most the first
`NOTION_PAGE_LIMIT` qualifying records, which are the only ones archived.
Returns the surviving records and the count of archived ones. -/
def delete_old_entries (now : ℚ) (days_to_keep : ℕ)
    (store : List PersistedRecord) : List PersistedRecord × ℕ :=
  let cutoff := dayStart (now - (days_to_keep : ℚ) * 86400)
  (archiveFirst cutoff NOTION_PAGE_LIMIT store,
   min NOTION_PAGE_LIMIT (store.filter (fun r => decide (r.found_at < cutoff))).length)

/-- One channel's share of the `main` loop (src lines 492-507): fetch at
most `VIDEOS_FOR_AVERAGE` recent uploads, average exactly those videos'
views, and classify the same list against that average. -/
def process_channel (keywords : List String) (threshold lookback_hours now : ℚ)
    (feed : String → List Video) (ch : ChannelCfg) : List ClassifiedVideo :=
  let videos := (feed ch.id).take VIDEOS_FOR_AVERAGE
  find_outliers keywords threshold now ch.name videos
    (calculate_channel_average videos) lookback_hours

/-- `main` (src lines 444-546) as a store transformer: the retention sweep
runs first (src line 451); only then is the channel list checked and the
cycle aborted when it is empty (src lines 454-457); otherwise every channel
is processed, the results are ranked and the survivors of deduplication are
written. -/
def main_cycle (now : ℚ) (channels : List ChannelCfg)
    (feed : String → List Video) (store : List PersistedRecord) :
    List PersistedRecord :=
  let store1 := (delete_old_entries now 7 store).1
  if channels.isEmpty then store1
  else
    let all_outliers :=
      (channels.map (process_channel TOPIC_KEYWORDS OUTLIER_THRESHOLD
        LOOKBACK_HOURS now feed)).flatten
    let ranked := sortByScoreDesc all_outliers
    store1 ++ (send_to_notion now (okListing store1) ranked).1

/-! Concrete fixtures used by the closed checks below. -/

/-- A candidate video with URL `"u"`. -/
def vDup1 : Video := ⟨"d1", "t1", some 0, 5, 0, 0, "u", ""⟩

/-- A second, distinct candidate video that shares the URL `"u"`. -/
def vDup2 : Video := ⟨"d2", "t2", some 0, 6, 0, 0, "u", ""⟩

/-- `vDup1` as a classified candidate. -/
def cDup1 : ClassifiedVideo := ⟨vDup1, "Ch", 0, 1, 0, 1⟩

/-- `vDup2` as a classified candidate: same dedup key as `cDup1`. -/
def cDup2 : ClassifiedVideo := ⟨vDup2, "Ch", 0, 1, 0, 1⟩

/-- A candidate video with fresh URL `"b"`. -/
def vNew : Video := ⟨"n1", "tn", some 0, 5, 0, 0, "b", ""⟩

/-- `vNew` as a classified candidate. -/
def cNew : ClassifiedVideo := ⟨vNew, "Ch", 0, 1, 0, 1⟩

/-- Scenario C of the spec: a topic-matching title with a low score. -/
def vC3 : Video := ⟨"c3", "Volcano erupts!", some 5, 3, 0, 0, "uc3", ""⟩

/-- 999 views against a channel average of 1000: exact score 0.999. -/
def v999 : Video := ⟨"x9", "t999", some 0, 999, 0, 0, "u999", ""⟩

/-- 1001 views against a channel average of 1000: exact score 1.001. -/
def v1001 : Video := ⟨"y1", "t1001", some 0, 1001, 0, 0, "u1001", ""⟩

/-- A zero-view video published exactly at the cycle instant. -/
def v0fix : Video := ⟨"v0", "t0", some 0, 0, 0, 0, "u0", ""⟩

/-- A one-video upload feed. -/
def feed0 : String → List Video := fun _ => [v0fix]

/-- A resolved channel for the one-video feed. -/
def ch0 : ChannelCfg := ⟨"c0", "Chan"⟩

/-- What classifying `v0fix` produces. -/
def c0fix : ClassifiedVideo := ⟨v0fix, "Chan", 0, 0, 0, 1⟩

/-! Helper lemmas. -/

/-- The channel average is a mean of view counts, hence never negative. -/
theorem calculate_channel_average_nonneg (videos : List Video) :
    0 ≤ calculate_channel_average videos := by
  unfold calculate_channel_average
  split
  · exact le_refl 0
  · exact div_nonneg (Nat.cast_nonneg _) (Nat.cast_nonneg _)

/-- `List.contains` on strings agrees with membership. -/
theorem contains_iff_memStr (l : List String) (a : String) :
    l.contains a = true ↔ a ∈ l := by simp

/-- The records created by `send_to_notion` come from the candidates that
survive the dedup filter. -/
theorem send_to_notion_fst (now : ℚ) (pages : List PageResult)
    (outliers : List ClassifiedVideo) :
    (send_to_notion now pages outliers).1 =
      (outliers.filter (fun v =>
        !((get_existing_video_urls pages).contains v.video.url))).map
        (fun v => ⟨v.video.url, now⟩) := rfl

/-- The skipped count reported by `send_to_notion`. -/
theorem send_to_notion_snd (now : ℚ) (pages : List PageResult)
    (outliers : List ClassifiedVideo) :
    (send_to_notion now pages outliers).2 =
      outliers.length - (outliers.filter (fun v =>
        !((get_existing_video_urls pages).contains v.video.url))).length := rfl

/-- A one-page successful listing yields exactly the store's non-empty URLs. -/
theorem getUrls_okListing (store : List PersistedRecord) :
    get_existing_video_urls (okListing store) =
      (store.map (fun r => r.url)).filter (fun u => !(u == "")) := by
  simp [okListing, get_existing_video_urls]

/-- The sweep only removes records: the survivors form a sublist. -/
theorem archiveFirst_sublist (cutoff : ℚ) (budget : ℕ) (l : List PersistedRecord) :
    (archiveFirst cutoff budget l).Sublist l := by
  induction l generalizing budget with
  | nil => simp [archiveFirst]
  | cons r rs ih =>
    by_cases h : 0 < budget ∧ r.found_at < cutoff
    · simp only [archiveFirst, if_pos h]
      exact (ih (budget - 1)).trans (List.sublist_cons_self r rs)
    · simp only [archiveFirst, if_neg h]
      exact (ih budget).cons₂ r

/-- Records at or after the day cutoff are never archived: the sweep
preserves them exactly, in order. -/
theorem archiveFirst_filter_keep (cutoff : ℚ) (budget : ℕ) (l : List PersistedRecord) :
    (archiveFirst cutoff budget l).filter (fun r => !(decide (r.found_at < cutoff))) =
      l.filter (fun r => !(decide (r.found_at < cutoff))) := by
  induction l generalizing budget with
  | nil => rfl
  | cons r rs ih =>
    by_cases h : 0 < budget ∧ r.found_at < cutoff
    · simp only [archiveFirst, if_pos h]
      rw [ih, List.filter_cons_of_neg (by simp [h.2])]
    · simp only [archiveFirst, if_neg h]
      by_cases hold : r.found_at < cutoff
      · rw [List.filter_cons_of_neg (by simp [hold]),
          List.filter_cons_of_neg (by simp [hold]), ih]
      · rw [List.filter_cons_of_pos (by simp [hold]),
          List.filter_cons_of_pos (by simp [hold]), ih]

/-- The archived stale records are exactly the first `budget` stale ones in
listing order: the stale survivors are those beyond the page. -/
theorem archiveFirst_filter_old (cutoff : ℚ) (budget : ℕ) (l : List PersistedRecord) :
    (archiveFirst cutoff budget l).filter (fun r => decide (r.found_at < cutoff)) =
      (l.filter (fun r => decide (r.found_at < cutoff))).drop budget := by
  induction l generalizing budget with
  | nil => simp [archiveFirst]
  | cons r rs ih =>
    by_cases hold : r.found_at < cutoff
    · by_cases hb : 0 < budget
      · obtain ⟨k, rfl⟩ : ∃ k, budget = k + 1 :=
          ⟨budget - 1, (Nat.succ_pred_eq_of_pos hb).symm⟩
        have hcond : 0 < k + 1 ∧ r.found_at < cutoff := ⟨hb, hold⟩
        simp only [archiveFirst, if_pos hcond, Nat.add_sub_cancel]
        simp [ih, hold, List.drop_succ_cons]
      · have hb0 : budget = 0 := Nat.eq_zero_of_not_pos hb
        subst hb0
        have hncond : ¬ (0 < 0 ∧ r.found_at < cutoff) := fun hc => hb hc.1
        simp only [archiveFirst, if_neg hncond]
        simp [ih, hold]
    · have hncond : ¬ (0 < budget ∧ r.found_at < cutoff) := fun hc => hold hc.2
      simp only [archiveFirst, if_neg hncond]
      simp [ih, hold]

/-- When no more stale records qualify than the page holds, the sweep is
complete: exactly the non-stale records survive. -/
theorem archiveFirst_complete (cutoff : ℚ) (budget : ℕ) (l : List PersistedRecord)
    (h : (l.filter (fun r => decide (r.found_at < cutoff))).length ≤ budget) :
    archiveFirst cutoff budget l =
      l.filter (fun r => !(decide (r.found_at < cutoff))) := by
  induction l generalizing budget with
  | nil => rfl
  | cons r rs ih =>
    by_cases hold : r.found_at < cutoff
    · rw [List.filter_cons_of_pos (by simp [hold]), List.length_cons] at h
      have hb : 0 < budget := by omega
      have hcond : 0 < budget ∧ r.found_at < cutoff := ⟨hb, hold⟩
      simp only [archiveFirst, if_pos hcond]
      rw [ih (budget - 1) (by omega), List.filter_cons_of_neg (by simp [hold])]
    · rw [List.filter_cons_of_neg (by simp [hold])] at h
      have hncond : ¬ (0 < budget ∧ r.found_at < cutoff) := fun hc => hold hc.2
      simp only [archiveFirst, if_neg hncond]
      rw [ih budget h, List.filter_cons_of_pos (by simp [hold])]

/-- A classified record produced by `classify_video` wraps the very video
that was classified. -/
theorem classify_video_video_mem {keywords : List String} {threshold now cutoff : ℚ}
    {name : String} {avg : ℚ} {v : Video} {c : ClassifiedVideo}
    (h : classify_video keywords threshold now cutoff name avg v = some c) :
    c.video = v := by
  unfold classify_video at h
  split at h
  · cases h
  · split at h
    · cases h
    · split at h
      · split at h
        · cases h
          rfl
        · cases h
      · cases h

/-- Membership in an `insertByScore` result. -/
theorem mem_insertByScore {x c : ClassifiedVideo} {l : List ClassifiedVideo} :
    x ∈ insertByScore c l ↔ x = c ∨ x ∈ l := by
  induction l with
  | nil => simp [insertByScore]
  | cons d ds ih =>
    by_cases hd : d.outlier_score ≤ c.outlier_score
    · simp only [insertByScore, if_pos hd, List.mem_cons]
    · simp only [insertByScore, if_neg hd, List.mem_cons, ih]
      tauto

/-- Inserting preserves the sorted-descending invariant. -/
theorem pairwise_insertByScore {c : ClassifiedVideo} {l : List ClassifiedVideo}
    (h : l.Pairwise (fun a b => b.outlier_score ≤ a.outlier_score)) :
    (insertByScore c l).Pairwise (fun a b => b.outlier_score ≤ a.outlier_score) := by
  induction l with
  | nil => simp [insertByScore]
  | cons d ds ih =>
    rw [List.pairwise_cons] at h
    obtain ⟨hd1, hd2⟩ := h
    by_cases hd : d.outlier_score ≤ c.outlier_score
    · simp only [insertByScore, if_pos hd]
      rw [List.pairwise_cons]
      refine ⟨?_, List.pairwise_cons.mpr ⟨hd1, hd2⟩⟩
      intro x hx
      rcases List.mem_cons.mp hx with rfl | hx
      · exact hd
      · exact le_trans (hd1 x hx) hd
    · simp only [insertByScore, if_neg hd]
      rw [List.pairwise_cons]
      refine ⟨?_, ih hd2⟩
      intro x hx
      rcases mem_insertByScore.mp hx with rfl | hx
      · exact le_of_lt (not_le.mp hd)
      · exact hd1 x hx

/-- Inserting is a permutation of consing. -/
theorem perm_insertByScore (c : ClassifiedVideo) (l : List ClassifiedVideo) :
    (insertByScore c l).Perm (c :: l) := by
  induction l with
  | nil => exact List.Perm.refl _
  | cons d ds ih =>
    by_cases hd : d.outlier_score ≤ c.outlier_score
    · simp only [insertByScore, if_pos hd]
      exact List.Perm.refl _
    · simp only [insertByScore, if_neg hd]
      exact (ih.cons d).trans (List.Perm.swap c d ds)

/-- The ranked list is a permutation of the accumulated list. -/
theorem perm_sortByScoreDesc (l : List ClassifiedVideo) :
    (sortByScoreDesc l).Perm l := by
  induction l with
  | nil => exact List.Perm.refl _
  | cons c cs ih =>
    simp only [sortByScoreDesc]
    exact (perm_insertByScore c (sortByScoreDesc cs)).trans (ih.cons c)

/-- Filtering an equal-score class through an insertion: the inserted
record lands in front of its class, because insertion only passes records
of strictly greater score. -/
theorem filter_insertByScore (c : ClassifiedVideo) (l : List ClassifiedVideo) (q : ℚ) :
    (insertByScore c l).filter (fun x => decide (x.outlier_score = q)) =
      if c.outlier_score = q
      then c :: l.filter (fun x => decide (x.outlier_score = q))
      else l.filter (fun x => decide (x.outlier_score = q)) := by
  induction l with
  | nil =>
    by_cases h : c.outlier_score = q
    · simp [insertByScore, h]
    · simp [insertByScore, h]
  | cons d ds ih =>
    by_cases hd : d.outlier_score ≤ c.outlier_score
    · simp only [insertByScore, if_pos hd]
      by_cases h : c.outlier_score = q
      · simp [List.filter_cons, h]
      · simp [List.filter_cons, h]
    · simp only [insertByScore, if_neg hd]
      by_cases hdq : d.outlier_score = q
      · by_cases h : c.outlier_score = q
        · exact absurd (le_of_eq (hdq.trans h.symm)) hd
        · simp [List.filter_cons, hdq, h, ih]
      · by_cases h : c.outlier_score = q
        · simp [List.filter_cons, hdq, h, ih]
        · simp [List.filter_cons, hdq, h, ih]

/-- Stability of the ranking: every equal-score class keeps its original
relative order. -/
theorem filter_sortByScoreDesc (l : List ClassifiedVideo) (q : ℚ) :
    (sortByScoreDesc l).filter (fun x => decide (x.outlier_score = q)) =
      l.filter (fun x => decide (x.outlier_score = q)) := by
  induction l with
  | nil => rfl
  | cons c cs ih =>
    simp only [sortByScoreDesc]
    rw [filter_insertByScore]
    by_cases h : c.outlier_score = q
    · rw [if_pos h, ih, List.filter_cons, if_pos (by simp [h])]
    · rw [if_neg h, ih, List.filter_cons, if_neg (by simp [h])]

/-- Evaluating the fixture channel: the single zero-view video is
classified (empty keyword list, threshold 0). -/
theorem process_channel_fixture : process_channel [] 0 0 0 feed0 ch0 = [c0fix] := by
  norm_num [process_channel, find_outliers, classify_video, matches_topic_filter,
    outlierScore, hoursSinceUpload, viewsPerHour, calculate_channel_average,
    VIDEOS_FOR_AVERAGE, roundTo, roundHalfEven, feed0, ch0, v0fix, c0fix, Int.fract,
    List.take_of_length_le, List.filterMap_cons, List.filterMap_nil]

/-! Claim theorems. -/

/-- Claim C1, counterexample: the Dedup Reconciler filters candidates only
against the store's known keys, not against each other. With an empty
store, a batch holding two candidates that share the URL `"u"` is written
in full, leaving two PersistedRecords with the same URL — so the claimed
invariant fails when the cycle's own candidate list repeats a URL. -/
theorem C1_duplicate_in_batch_counterexample :
    ¬ ((([] : List PersistedRecord) ++
        (send_to_notion 0 (okListing []) [cDup1, cDup2]).1).map
          (fun r => r.url)).Nodup := by decide

/-- Claim C1 (amended): no candidate whose URL is already a known key in
the persisted store is passed to the Sync Writer, and — provided the
cycle's candidate URLs are pairwise distinct and non-empty and the store's
URLs are distinct — after the cycle's writes no two PersistedRecords share
a URL. (The original claim's allowance for duplicate URLs inside one
candidate batch is exactly what fails.) -/
theorem C1_dedup_amended (now : ℚ) (store : List PersistedRecord)
    (outliers : List ClassifiedVideo)
    (h1 : (store.map (fun r => r.url)).Nodup)
    (h2 : (outliers.map (fun c => c.video.url)).Nodup)
    (h3 : ∀ c ∈ outliers, c.video.url ≠ "") :
    (∀ r ∈ (send_to_notion now (okListing store) outliers).1,
        r.url ∉ store.map (fun s => s.url)) ∧
    ((store ++ (send_to_notion now (okListing store) outliers).1).map
        (fun r => r.url)).Nodup := by
  have hmain : ∀ r ∈ (send_to_notion now (okListing store) outliers).1,
      r.url ∉ store.map (fun s => s.url) := by
    intro r hr
    simp only [send_to_notion, getUrls_okListing, List.mem_map] at hr
    obtain ⟨c, hc, rfl⟩ := hr
    rw [List.mem_filter] at hc
    obtain ⟨hco, hpass⟩ := hc
    intro habs
    have hne : c.video.url ≠ "" := h3 c hco
    have hmemf : c.video.url ∈ (store.map (fun s => s.url)).filter (fun u => !(u == "")) := by
      rw [List.mem_filter]
      exact ⟨habs, by simp [hne]⟩
    simp [List.contains, hmemf] at hpass
  refine ⟨hmain, ?_⟩
  rw [List.map_append, List.nodup_append]
  refine ⟨h1, ?_, ?_⟩
  · have heq : ((send_to_notion now (okListing store) outliers).1).map (fun r => r.url)
        = (outliers.filter (fun v =>
            !((get_existing_video_urls (okListing store)).contains v.video.url))).map
          (fun c => c.video.url) := by
      simp [send_to_notion]
    rw [heq]
    exact h2.sublist ((List.filter_sublist outliers).map _)
  · intro a ha hb
    rw [List.mem_map] at hb
    obtain ⟨r, hr, rfl⟩ := hb
    exact hmain r hr ha

/-- Witness for the amended C1: store `["a"]`, one candidate with URL
`"b"` — nothing already known is passed through, and the resulting store
has pairwise distinct URLs. -/
theorem C1_dedup_amended_witness :
    (∀ r ∈ (send_to_notion 0 (okListing [⟨"a", 0⟩]) [cNew]).1,
        r.url ∉ ([⟨"a", 0⟩] : List PersistedRecord).map (fun s => s.url)) ∧
    ((([⟨"a", 0⟩] : List PersistedRecord) ++
        (send_to_notion 0 (okListing [⟨"a", 0⟩]) [cNew]).1).map
        (fun r => r.url)).Nodup :=
  C1_dedup_amended 0 [⟨"a", 0⟩] [cNew] (by decide) (by decide) (by decide)

/-- Claim C2: running the sync against the store as it stands after the
first run's own (successful) writes, with the same candidate list and a
succeeding listing, writes nothing and skips every candidate. Candidate
URLs are assumed non-empty, as every URL the pipeline builds is
`"https://www.youtube.com/watch?v=..."`. -/
theorem C2_second_run_zero_writes (now1 now2 : ℚ) (store : List PersistedRecord)
    (outliers : List ClassifiedVideo)
    (h : ∀ c ∈ outliers, c.video.url ≠ "") :
    (send_to_notion now2
        (okListing (store ++ (send_to_notion now1 (okListing store) outliers).1))
        outliers).1 = [] ∧
    (send_to_notion now2
        (okListing (store ++ (send_to_notion now1 (okListing store) outliers).1))
        outliers).2 = outliers.length := by
  have hnil : outliers.filter (fun v =>
      !((get_existing_video_urls
          (okListing (store ++ (send_to_notion now1 (okListing store) outliers).1))).contains
        v.video.url)) = [] := by
    rw [List.filter_eq_nil_iff]
    intro c hc
    have hne : c.video.url ≠ "" := h c hc
    have hmem : c.video.url ∈
        (store ++ (send_to_notion now1 (okListing store) outliers).1).map
          (fun r => r.url) := by
      rw [List.map_append, List.mem_append]
      by_cases hin : (get_existing_video_urls (okListing store)).contains c.video.url = true
      · left
        rw [contains_iff_memStr, getUrls_okListing] at hin
        exact (List.mem_filter.mp hin).1
      · right
        rw [send_to_notion_fst, List.map_map, List.mem_map]
        refine ⟨c, ?_, rfl⟩
        rw [List.mem_filter]
        refine ⟨hc, ?_⟩
        rw [Bool.not_eq_true']
        exact Bool.eq_false_iff.mpr hin
    have hct : ((get_existing_video_urls
        (okListing (store ++ (send_to_notion now1 (okListing store) outliers).1))).contains
          c.video.url) = true := by
      rw [contains_iff_memStr]
      rw [getUrls_okListing]
      rw [List.mem_filter]
      exact ⟨hmem, by simp [hne]⟩
    intro habs
    rw [hct] at habs
    simp at habs
  constructor
  · rw [send_to_notion_fst, hnil, List.map_nil]
  · rw [send_to_notion_snd, hnil, List.length_nil, Nat.sub_zero]

/-- Witness for C2: an empty store and the single fresh candidate `cNew` —
after the first run writes it, the second run writes nothing and reports
one skip. -/
theorem C2_second_run_zero_writes_witness :
    (send_to_notion 1
        (okListing (([] : List PersistedRecord) ++
          (send_to_notion 0 (okListing []) [cNew]).1)) [cNew]).1 = [] ∧
    (send_to_notion 1
        (okListing (([] : List PersistedRecord) ++
          (send_to_notion 0 (okListing []) [cNew]).1)) [cNew]).2 = [cNew].length :=
  C2_second_run_zero_writes 0 1 [] [cNew] (by decide)

/-- Claim C3: for a video that passes the timestamp and lookback checks,
inclusion is keyword-driven when the keyword set is non-empty (any
case-insensitive title match, regardless of score) and threshold-driven
when it is empty (score at least the threshold). -/
theorem C3_inclusion_rule (keywords : List String) (threshold : ℚ) (now cutoff : ℚ)
    (channel_name : String) (channel_average : ℚ) (v : Video) (p : ℚ)
    (hp : v.published_at = some p) (hc : ¬ p < cutoff) :
    (classify_video keywords threshold now cutoff channel_name channel_average v).isSome =
      (if keywords = [] then decide (threshold ≤ outlierScore v.views channel_average)
       else matches_topic_filter keywords v.title) := by
  unfold classify_video
  rw [hp]
  simp only [if_neg hc]
  by_cases hk : keywords = []
  · subst hk
    simp only [matches_topic_filter, if_pos rfl, if_true]
    by_cases ht : threshold ≤ outlierScore v.views channel_average
    · simp [ht]
    · simp [ht]
  · simp only [if_neg hk]
    by_cases hm : matches_topic_filter keywords v.title
    · simp [hm, hk]
    · simp [hm]

/-- Witness for C3 (the spec's Scenario C): keyword `"volcano"`, the title
`"Volcano erupts!"`, 3 views against an average of 10 (score 0.3, below
the 1.5 threshold) — inclusion is decided by the topic match alone. -/
theorem C3_inclusion_rule_witness :
    (classify_video ["volcano"] OUTLIER_THRESHOLD 5 0 "Ch" 10 vC3).isSome =
      (if (["volcano"] : List String) = []
       then decide (OUTLIER_THRESHOLD ≤ outlierScore vC3.views 10)
       else matches_topic_filter ["volcano"] vC3.title) :=
  C3_inclusion_rule ["volcano"] OUTLIER_THRESHOLD 5 0 "Ch" 10 vC3 5 rfl (by decide)

/-- Claim C4, counterexample: the aggregator sorts by the *stored, rounded*
score. Videos with 999 and 1001 views against an average of 1000 have
exact scores 0.999 < 1.001, both stored as 1.0; the sort leaves them in
encounter order `[999, 1001]`, so the output is not sorted by the exact
pre-rounding score in descending order. -/
theorem C4_exact_score_counterexample :
    (sortByScoreDesc (find_outliers [] (1 / 2) 0 "Ch" [v999, v1001] 1000 168)).map
        (fun c => c.video.views) = [999, 1001] ∧
    outlierScore 999 1000 < outlierScore 1001 1000 := by
  constructor
  · norm_num [sortByScoreDesc, insertByScore, find_outliers, classify_video,
      matches_topic_filter, outlierScore, hoursSinceUpload, viewsPerHour,
      roundTo, roundHalfEven, Int.fract, v999, v1001,
      List.filterMap_cons, List.filterMap_nil]
  · norm_num [outlierScore]

/-- Claim C4 (amended): the aggregator's output is a permutation of its
input, sorted in descending order of the *stored (display-rounded)*
`outlier_score`, and stable — every class of records with an equal stored
score keeps its original relative order. Rounding does take part in the
comparison: records whose exact scores differ but round alike are ties. -/
theorem C4_sort_amended (l : List ClassifiedVideo) :
    (sortByScoreDesc l).Pairwise (fun a b => b.outlier_score ≤ a.outlier_score) ∧
    (sortByScoreDesc l).Perm l ∧
    ∀ q : ℚ, (sortByScoreDesc l).filter (fun x => decide (x.outlier_score = q)) =
      l.filter (fun x => decide (x.outlier_score = q)) := by
  refine ⟨?_, perm_sortByScoreDesc l, fun q => filter_sortByScoreDesc l q⟩
  induction l with
  | nil => simp [sortByScoreDesc]
  | cons c cs ih =>
    simp only [sortByScoreDesc]
    exact pairwise_insertByScore ih

/-- Claim C5, counterexample: with `now` at noon of day 7 (648000 s) and a
7-day retention, a record found at 01:00 of day 0 (3600 s) is strictly
older than `now − 7 days` (43200 s), yet the sweep keeps it, because the
cutoff is truncated to the calendar date (midnight of day 0). -/
theorem C5_day_granularity_counterexample :
    (delete_old_entries 648000 7 [⟨"u", 3600⟩]).1 = [⟨"u", 3600⟩] ∧
    (3600 : ℚ) < 648000 - (7 : ℕ) * 86400 := by
  constructor
  · norm_num [delete_old_entries, archiveFirst, dayStart]
  · norm_num

/-- Claim C5 (amended): the Retention Sweeper archives exactly the first
`NOTION_PAGE_LIMIT` (100) PersistedRecords, in store listing order, among
those whose found timestamp is strictly before the *start of the UTC
calendar day* of `now − retention_days` — the cutoff is date-granular, and
the sweep's single un-paginated query caps one run at 100 archivals. Every
record at or after that day start remains, in order; the stale survivors
are exactly those beyond the first 100; when at most 100 records qualify
the sweep is complete; and the reported count is
`min 100 (number of qualifying records)`. -/
theorem C5_retention_amended (now : ℚ) (days_to_keep : ℕ)
    (store : List PersistedRecord) :
    ((delete_old_entries now days_to_keep store).1).Sublist store ∧
    ((delete_old_entries now days_to_keep store).1).filter
        (fun r => !(decide (r.found_at < dayStart (now - (days_to_keep : ℚ) * 86400)))) =
      store.filter
        (fun r => !(decide (r.found_at < dayStart (now - (days_to_keep : ℚ) * 86400)))) ∧
    ((delete_old_entries now days_to_keep store).1).filter
        (fun r => decide (r.found_at < dayStart (now - (days_to_keep : ℚ) * 86400))) =
      (store.filter
        (fun r => decide (r.found_at < dayStart (now - (days_to_keep : ℚ) * 86400)))).drop
        NOTION_PAGE_LIMIT ∧
    ((store.filter
        (fun r => decide (r.found_at < dayStart (now - (days_to_keep : ℚ) * 86400)))).length
          ≤ NOTION_PAGE_LIMIT →
      (delete_old_entries now days_to_keep store).1 =
        store.filter
          (fun r => !(decide (r.found_at < dayStart (now - (days_to_keep : ℚ) * 86400))))) ∧
    (delete_old_entries now days_to_keep store).2 =
      min NOTION_PAGE_LIMIT
        (store.filter
          (fun r => decide (r.found_at < dayStart (now - (days_to_keep : ℚ) * 86400)))).length := by
  refine ⟨archiveFirst_sublist _ _ _, archiveFirst_filter_keep _ _ _,
    archiveFirst_filter_old _ _ _, fun h => archiveFirst_complete _ _ _ h, rfl⟩

/-- Witness for the amended C5 at a concrete store and instant: the noon
sweep of day 7 keeps the 01:00-of-day-0 record (it is on, not before, the
cutoff's calendar day). -/
theorem C5_retention_amended_witness :
    ((delete_old_entries 648000 7 [⟨"u", 3600⟩]).1).Sublist [⟨"u", 3600⟩] ∧
    ((delete_old_entries 648000 7 [⟨"u", 3600⟩]).1).filter
        (fun r => !(decide (r.found_at < dayStart (648000 - (7 : ℕ) * 86400)))) =
      ([(⟨"u", 3600⟩ : PersistedRecord)]).filter
        (fun r => !(decide (r.found_at < dayStart (648000 - (7 : ℕ) * 86400)))) ∧
    ((delete_old_entries 648000 7 [⟨"u", 3600⟩]).1).filter
        (fun r => decide (r.found_at < dayStart (648000 - (7 : ℕ) * 86400))) =
      (([(⟨"u", 3600⟩ : PersistedRecord)]).filter
        (fun r => decide (r.found_at < dayStart (648000 - (7 : ℕ) * 86400)))).drop
        NOTION_PAGE_LIMIT ∧
    ((([(⟨"u", 3600⟩ : PersistedRecord)]).filter
        (fun r => decide (r.found_at < dayStart (648000 - (7 : ℕ) * 86400)))).length
          ≤ NOTION_PAGE_LIMIT →
      (delete_old_entries 648000 7 [⟨"u", 3600⟩]).1 =
        ([(⟨"u", 3600⟩ : PersistedRecord)]).filter
          (fun r => !(decide (r.found_at < dayStart (648000 - (7 : ℕ) * 86400))))) ∧
    (delete_old_entries 648000 7 [⟨"u", 3600⟩]).2 =
      min NOTION_PAGE_LIMIT
        (([(⟨"u", 3600⟩ : PersistedRecord)]).filter
          (fun r => decide (r.found_at < dayStart (648000 - (7 : ℕ) * 86400)))).length :=
  C5_retention_amended 648000 7 [⟨"u", 3600⟩]

/-- Claim C6, counterexample: with no channels configured but one stale
record in the store, the cycle still archives it — `delete_old_entries`
runs before the channel-list check — so the abort is not free of side
effects. -/
theorem C6_sweep_before_abort_counterexample :
    main_cycle 864000 [] (fun _ => []) [⟨"u", 0⟩] = [] ∧
    ([⟨"u", 0⟩] : List PersistedRecord) ≠ [] := by
  constructor
  · norm_num [main_cycle, delete_old_entries, archiveFirst, dayStart, NOTION_PAGE_LIMIT]
  · decide

/-- Claim C6 (amended): when no channels are configured the cycle aborts
before any classification or store write — the store afterwards is exactly
the retention sweep's result and contains no new records — but the
retention sweep itself has already run, so archivals do occur before the
abort. -/
theorem C6_abort_amended (now : ℚ) (feed : String → List Video)
    (store : List PersistedRecord) (channels : List ChannelCfg)
    (h : channels = []) :
    main_cycle now channels feed store = (delete_old_entries now 7 store).1 ∧
    ∀ r ∈ main_cycle now channels feed store, r ∈ store := by
  subst h
  have h1 : main_cycle now [] feed store = (delete_old_entries now 7 store).1 := rfl
  refine ⟨h1, ?_⟩
  intro r hr
  rw [h1] at hr
  exact (archiveFirst_sublist _ _ _).subset hr

/-- Witness for the amended C6 at a concrete store and instant. -/
theorem C6_abort_amended_witness :
    (main_cycle 5 [] (fun _ => []) [⟨"w", 5⟩] = (delete_old_entries 5 7 [⟨"w", 5⟩]).1) ∧
    ∀ r ∈ main_cycle 5 [] (fun _ => []) [⟨"w", 5⟩], r ∈ [(⟨"w", 5⟩ : PersistedRecord)] :=
  C6_abort_amended 5 (fun _ => []) [⟨"w", 5⟩] [] rfl

/-- Claim C7, counterexample: a listing whose first page succeeds (URL
`"a"`, more pages expected) and whose second request fails yields the
known-set `["a"]`, not the empty set the claim demands. -/
theorem C7_partial_urls_counterexample :
    get_existing_video_urls [PageResult.ok [⟨"a", 0⟩] true, PageResult.err] = ["a"] ∧
    get_existing_video_urls [PageResult.ok [⟨"a", 0⟩] true, PageResult.err] ≠ [] := by
  decide

/-- Claim C7 (amended): when the paginated listing fails at any point, the
reconciler does not abort — it proceeds with exactly the (non-empty) URLs
of the pages fetched before the failure, which is the empty set only when
the very first request fails. -/
theorem C7_listing_failure_amended (front : List (List PersistedRecord))
    (rest : List PageResult) :
    get_existing_video_urls
        (front.map (fun recs => PageResult.ok recs true) ++ PageResult.err :: rest) =
      (front.map (fun recs =>
        (recs.map (fun r => r.url)).filter (fun u => !(u == "")))).flatten := by
  induction front with
  | nil => rfl
  | cons h t ih =>
    simp only [List.map_cons, List.cons_append, get_existing_video_urls, if_pos,
      List.append_eq, ih, List.flatten_cons]

/-- Claim C8: against a channel baseline (which is a mean of view counts,
hence non-negative), the computed outlier score is never negative; it is
zero exactly when the average is zero or the view count is zero; and it
satisfies `score * average = views` whenever the average is positive,
i.e. the score is exactly `views / average` in that case and `0`
otherwise. -/
theorem C8_outlier_score_spec (videos : List Video) (views : ℕ) :
    0 ≤ outlierScore views (calculate_channel_average videos) ∧
    (outlierScore views (calculate_channel_average videos) = 0 ↔
      calculate_channel_average videos = 0 ∨ views = 0) ∧
    outlierScore views (calculate_channel_average videos) *
        calculate_channel_average videos =
      if 0 < calculate_channel_average videos then (views : ℚ) else 0 := by
  set avg := calculate_channel_average videos with havg
  have hnn : 0 ≤ avg := calculate_channel_average_nonneg videos
  by_cases hpos : 0 < avg
  · have hne : avg ≠ 0 := ne_of_gt hpos
    refine ⟨?_, ?_, ?_⟩
    · simp only [outlierScore, if_pos hpos]
      positivity
    · simp only [outlierScore, if_pos hpos]
      rw [div_eq_zero_iff]
      constructor
      · rintro (h | h)
        · right; exact_mod_cast h
        · exact absurd h hne
      · rintro (h | h)
        · exact absurd h hne
        · left; exact_mod_cast h
    · simp only [outlierScore, if_pos hpos]
      exact div_mul_cancel₀ _ hne
  · have h0 : avg = 0 := le_antisymm (not_lt.mp hpos) hnn
    refine ⟨?_, ?_, ?_⟩
    · simp [outlierScore, hpos]
    · simp [outlierScore, hpos, h0]
    · simp [outlierScore, hpos, h0]

/-- Claim C9: `hours_since_upload` is the elapsed time in hours clamped
below at 1, so it is never less than 1; `views_per_hour` divides the views
by it; and a video published 30 minutes (1800 s) before `now` with 500
views gets `hours_since_upload = 1` and `views_per_hour = 500`. -/
theorem C9_hours_clamp_spec (now published : ℚ) (views : ℕ) :
    1 ≤ hoursSinceUpload now published ∧
    viewsPerHour views now published = (views : ℚ) / hoursSinceUpload now published ∧
    hoursSinceUpload now (now - 1800) = 1 ∧
    viewsPerHour 500 now (now - 1800) = 500 := by
  refine ⟨le_max_right _ _, rfl, ?_, ?_⟩
  · unfold hoursSinceUpload
    rw [max_eq_right]
    have : now - (now - 1800) = 1800 := by ring
    rw [this]
    norm_num
  · unfold viewsPerHour hoursSinceUpload
    rw [show now - (now - 1800) = 1800 by ring]
    norm_num

/-- Claim C10: per channel, at most `VIDEOS_FOR_AVERAGE` (20) videos are
taken from the feed; the classification runs on exactly that list with the
average of exactly that list (so each classified video's own views are
part of the baseline it is scored against); and every classified record
wraps one of those same videos. -/
theorem C10_same_sample (keywords : List String) (threshold lookback_hours now : ℚ)
    (feed : String → List Video) (ch : ChannelCfg) (c : ClassifiedVideo)
    (hc : c ∈ process_channel keywords threshold lookback_hours now feed ch) :
    ((feed ch.id).take VIDEOS_FOR_AVERAGE).length ≤ VIDEOS_FOR_AVERAGE ∧
    c.video ∈ (feed ch.id).take VIDEOS_FOR_AVERAGE ∧
    process_channel keywords threshold lookback_hours now feed ch =
      find_outliers keywords threshold now ch.name
        ((feed ch.id).take VIDEOS_FOR_AVERAGE)
        (calculate_channel_average ((feed ch.id).take VIDEOS_FOR_AVERAGE))
        lookback_hours := by
  refine ⟨List.length_take_le _ _, ?_, rfl⟩
  unfold process_channel find_outliers at hc
  obtain ⟨v, hv, hsome⟩ := List.mem_filterMap.mp hc
  rw [classify_video_video_mem hsome]
  exact hv

/-- Witness for C10: the one-video fixture feed, whose single classified
record wraps the fixture video itself. -/
theorem C10_same_sample_witness :
    ((feed0 ch0.id).take VIDEOS_FOR_AVERAGE).length ≤ VIDEOS_FOR_AVERAGE ∧
    c0fix.video ∈ (feed0 ch0.id).take VIDEOS_FOR_AVERAGE ∧
    process_channel [] 0 0 0 feed0 ch0 =
      find_outliers [] 0 0 ch0.name
        ((feed0 ch0.id).take VIDEOS_FOR_AVERAGE)
        (calculate_channel_average ((feed0 ch0.id).take VIDEOS_FOR_AVERAGE))
        0 :=
  C10_same_sample [] 0 0 0 feed0 ch0 c0fix
    (by rw [process_channel_fixture]; exact List.mem_singleton_self c0fix)
